import Mathlib

/-!
Verification of the dev-time diagnostic broker in src/vite-plugin-snap-api.ts.

The plugin keeps two module-level maps:
  sessions : Map<string, Sess>    keyed by the string browserId + ":" + pageId
  waiters  : Map<string, Waiter>  keyed by the request identifier (reqId)

We embed the maps as association lists with JavaScript Map semantics
(set replaces in place when the key is present and appends otherwise;
delete filters the entry out; get finds the first entry), the channel
handlers and the dispatch functions as a step function over a state, and
the in-browser client helpers (the ring buffer and the html dump) as
plain functions.  A waiter in the source holds the resolve and reject
callbacks of a promise; those closures cannot be embedded directly, so a
step emits the outcomes it delivers (reqId paired with resolved envelope
or rejection) as an output list, and the theorems speak about that list.
-/

namespace SnapApi

/-- JS Map.get on an association list: first entry whose key matches. -/
def mGet {α : Type} (l : List (String × α)) (k : String) : Option α :=
  (l.find? (fun p => p.1 == k)).map (fun p => p.2)

/-- JS Map.set: replace in place when the key is present, append otherwise. -/
def mSet {α : Type} (l : List (String × α)) (k : String) (v : α) : List (String × α) :=
  if (l.find? (fun p => p.1 == k)).isSome then
    l.map (fun p => if p.1 == k then (k, v) else p)
  else
    l ++ [(k, v)]

/-- JS Map.delete: drop the entry with the given key. -/
def mDel {α : Type} (l : List (String × α)) (k : String) : List (String × α) :=
  l.filter (fun p => !(p.1 == k))

/-- Number of entries under a given key (0 or 1 on states reachable from empty). -/
def keyCount {α : Type} (l : List (String × α)) (k : String) : Nat :=
  (l.filter (fun p => p.1 == k)).length

/-- One session entry: type Sess of the source (the client handle is
reduced to an abstract client number, only used to address sends). -/
structure Sess where
  sid : String
  browserId : String
  pageId : String
  ua : String
  href : String
  title : String
  client : Nat
  lastSeen : Nat
deriving Repr, DecidableEq

/-- One pending request: type Waiter of the source.  The resolve and
reject callbacks become step outputs; the deadline timer is represented
by the entry itself (see the comment at Event.timerFire). -/
structure Waiter where
  waitMs : Nat
deriving Repr, DecidableEq

/-- A reply envelope d as received by the snap:dumpResult and
snap:pingResult handlers: the handlers read d.reqId and hand the whole
envelope over; the payload is kept as an opaque blob. -/
structure Envelope where
  reqId : Option String
  ok : Bool
  error : Option String
  payload : Option String
deriving Repr, DecidableEq

/-- An outcome delivered to the promise of one request identifier:
resolve was invoked with the envelope, or reject was invoked. -/
inductive Outcome where
  | resolved (env : Envelope)
  | rejected (err : String)
deriving Repr, DecidableEq

/-- True on reject outcomes. -/
def isRejection : Outcome → Bool
  | .rejected _ => true
  | .resolved _ => false

/-- A message the server sends on a client channel. -/
inductive Send where
  | ack (client : Nat) (sid : String)
  | dump (client : Nat) (reqId : String) (types : List String)
  | ping (client : Nat) (reqId : String)
deriving Repr, DecidableEq

/-- The two module-level maps of the plugin. -/
structure St where
  sessions : List (String × Sess)
  waiters : List (String × Waiter)
deriving Repr, DecidableEq

/-- Initial state: both maps empty. -/
def initSt : St := ⟨[], []⟩

/-- Stale threshold of the sweeper: 5 * 60_000 ms. -/
def STALE_SESSION_MS : Nat := 5 * 60000

/-- Default active window of the sessions listing: 45_000 ms. -/
def DEFAULT_ACTIVE_WINDOW_MS : Nat := 45000

/-- The events the broker reacts to.  dispatchDump and dispatchPing
carry the reqId freshly minted by crypto.randomUUID at lines 29 and 39
as a parameter; timerFire is the deadline callback of one setTimeout.
In the source a timer is armed exactly while its waiter entry is
present: registration stores waiter and timer together (lines 31 to 32
and 41 to 42), a reply clears the timer in the same tick it deletes the
entry (lines 75 and 78), and the timer callback deletes the entry it
fired for (lines 31 and 41); so the guard of timerFire is presence of
the waiter entry. -/
inductive Event where
  | hello (browserId pageId href title ua : String) (client : Nat) (now : Nat)
  | pong (sid : Option String) (now : Nat)
  | dumpResult (env : Envelope)
  | pingResult (env : Envelope)
  | bye (sid : Option String)
  | sweep (now : Nat)
  | dispatchDump (sid : String) (types : List String) (waitMs : Nat) (reqId : String)
  | dispatchPing (sid : String) (waitMs : Nat) (reqId : String)
  | timerFire (reqId : String)
deriving Repr, DecidableEq

/-- Result of one step: the new state, the outcomes delivered to
waiting callers, and the messages sent on client channels. -/
structure StepOut where
  st : St
  outs : List (String × Outcome)
  sends : List Send
deriving Repr, DecidableEq

/-- The session key of a hello event: the template literal at line 69. -/
def helloSid (browserId pageId : String) : String :=
  browserId ++ ":" ++ pageId

/-- Body of the snap:pong handler on a found session (line 73): the
found entry gets lastSeen refreshed in place. -/
def touchSessions (l : List (String × Sess)) (sid : String) (now : Nat) :
    List (String × Sess) :=
  l.map (fun q => if q.1 == sid then (q.1, { q.2 with lastSeen := now }) else q)

/-- Body of the sweeper (lines 85 to 88): keep exactly the sessions
whose age does not exceed the stale threshold. -/
def sweepSessions (l : List (String × Sess)) (now : Nat) : List (String × Sess) :=
  l.filter (fun q => !(decide (now - q.2.lastSeen > STALE_SESSION_MS)))

/-- Synchronous prefix of handleDump (lines 27 to 36): look up the
session, fail fast when absent, otherwise register the waiter under the
fresh reqId and send snap:dump on the session channel. -/
def dispatchDumpFn (st : St) (sid : String) (types : List String) (waitMs : Nat)
    (reqId : String) : Except String (St × Send) :=
  match mGet st.sessions sid with
  | none => .error "no such session"
  | some s => .ok ({ st with waiters := mSet st.waiters reqId ⟨waitMs⟩ },
      .dump s.client reqId types)

/-- Synchronous prefix of handlePing (lines 37 to 46). -/
def dispatchPingFn (st : St) (sid : String) (waitMs : Nat)
    (reqId : String) : Except String (St × Send) :=
  match mGet st.sessions sid with
  | none => .error "no such session"
  | some s => .ok ({ st with waiters := mSet st.waiters reqId ⟨waitMs⟩ },
      .ping s.client reqId)

/-- The shared body of the snap:dumpResult and snap:pingResult handlers
(lines 74 to 79): look the waiter up under d.reqId; when present, clear
its timer, delete it and invoke resolve with the whole envelope; when
absent (or the reqId field is missing) do nothing. -/
def resolveWaiter (st : St) (env : Envelope) : StepOut :=
  match env.reqId with
  | none => ⟨st, [], []⟩
  | some rid =>
    match mGet st.waiters rid with
    | none => ⟨st, [], []⟩
    | some _ => ⟨{ st with waiters := mDel st.waiters rid }, [(rid, .resolved env)], []⟩

/-- One event of the broker, as handled by configureServer. -/
def step (st : St) : Event → StepOut
  | .hello b p href title ua cl now =>
    let sid := helloSid b p
    ⟨{ st with sessions := mSet st.sessions sid ⟨sid, b, p, ua, href, title, cl, now⟩ },
      [], [.ack cl sid]⟩
  | .pong osid now =>
    match osid with
    | none => ⟨st, [], []⟩
    | some sid =>
      match mGet st.sessions sid with
      | none => ⟨st, [], []⟩
      | some _ => ⟨{ st with sessions := touchSessions st.sessions sid now }, [], []⟩
  | .dumpResult env => resolveWaiter st env
  | .pingResult env => resolveWaiter st env
  | .bye osid =>
    match osid with
    | none => ⟨st, [], []⟩
    | some sid =>
      if sid.isEmpty then ⟨st, [], []⟩
      else ⟨{ st with sessions := mDel st.sessions sid }, [], []⟩
  | .sweep now =>
    ⟨{ st with sessions := sweepSessions st.sessions now }, [], []⟩
  | .dispatchDump sid types waitMs reqId =>
    match dispatchDumpFn st sid types waitMs reqId with
    | .error _ => ⟨st, [], []⟩
    | .ok (st1, msg) => ⟨st1, [], [msg]⟩
  | .dispatchPing sid waitMs reqId =>
    match dispatchPingFn st sid waitMs reqId with
    | .error _ => ⟨st, [], []⟩
    | .ok (st1, msg) => ⟨st1, [], [msg]⟩
  | .timerFire reqId =>
    match mGet st.waiters reqId with
    | none => ⟨st, [], []⟩
    | some _ => ⟨{ st with waiters := mDel st.waiters reqId }, [(reqId, .rejected "timeout")], []⟩

/-- Run a list of events from a state, concatenating outputs in order. -/
def run (st : St) : List Event → StepOut
  | [] => ⟨st, [], []⟩
  | e :: t =>
    let o1 := step st e
    let o2 := run o1.st t
    ⟨o2.st, o1.outs ++ o2.outs, o1.sends ++ o2.sends⟩

/-- The request identifiers minted by the dispatch events of a trace. -/
def mintedIds : List Event → List String
  | [] => []
  | .dispatchDump _ _ _ reqId :: t => reqId :: mintedIds t
  | .dispatchPing _ _ reqId :: t => reqId :: mintedIds t
  | _ :: t => mintedIds t

/-- How many dispatch events of a trace mint a given identifier. -/
def mintedCount (r : String) : List Event → Nat
  | [] => 0
  | .dispatchDump _ _ _ reqId :: t => (if reqId = r then 1 else 0) + mintedCount r t
  | .dispatchPing _ _ reqId :: t => (if reqId = r then 1 else 0) + mintedCount r t
  | _ :: t => mintedCount r t

/-! The GET /__snap/sessions middleware, lines 94 to 103. -/

/-- JS truthiness of a string: false exactly on the empty string. -/
def jsTruthyStr (s : String) : Bool := !s.isEmpty

/-- Accumulator pass over decimal digits; none on any non digit. -/
def decNatAux : Nat → List Char → Option Nat
  | acc, [] => some acc
  | acc, c :: t => if c.isDigit then decNatAux (acc * 10 + (c.toNat - 48)) t else none

/-- JS Number(s) restricted to the strings this development quantifies
over: the empty string evaluates to 0 and a decimal digit string to its
value; every other string is left unmodelled and none stands in for the
values (NaN included) this embedding does not cover. -/
def jsNumber (s : String) : Option Nat :=
  if s.isEmpty then some 0 else decNatAux 0 s.data

/-- Line 98: onlyActive is set when active equals 1 or activeMs is present. -/
def onlyActiveFlag (activeParam activeMsParam : Option String) : Bool :=
  activeParam == some "1" || activeMsParam.isSome

/-- Line 99: activeMs is Math.max(0, Number(activeMsParam)) when the
parameter is present and truthy, and the default window otherwise. -/
def activeWindowMs (activeMsParam : Option String) : Option Nat :=
  match activeMsParam with
  | some s =>
    if jsTruthyStr s then (jsNumber s).map (fun n => max 0 n)
    else some DEFAULT_ACTIVE_WINDOW_MS
  | none => some DEFAULT_ACTIVE_WINDOW_MS

/-- Line 101: a session passes the filter when onlyActive is clear or
its age is within the window (a NaN window admits nothing). -/
def activeKeep (now : Nat) (onlyActive : Bool) (w : Option Nat) (s : Sess) : Bool :=
  !onlyActive ||
    (match w with
     | some a => decide (now - s.lastSeen ≤ a)
     | none => false)

/-- The filter of lines 100 to 101, applied to the registry values. -/
def sessionsFiltered (sessions : List Sess) (now : Nat)
    (activeParam activeMsParam : Option String) : List Sess :=
  sessions.filter
    (activeKeep now (onlyActiveFlag activeParam activeMsParam) (activeWindowMs activeMsParam))

/-- The summary shape of line 102. -/
structure SessionSummary where
  sid : String
  browserId : String
  pageId : String
  url : String
  title : String
  ua : String
  lastSeen : Nat
deriving Repr, DecidableEq

/-- The map of line 102. -/
def toSummary (s : Sess) : SessionSummary :=
  ⟨s.sid, s.browserId, s.pageId, s.href, s.title, s.ua, s.lastSeen⟩

/-- The full listing of lines 100 to 102: filter, then summarize. -/
def sessionsListing (sessions : List Sess) (now : Nat)
    (activeParam activeMsParam : Option String) : List SessionSummary :=
  (sessionsFiltered sessions now activeParam activeMsParam).map toSummary

/-! The in-browser client, CLIENT_CODE. -/

/-- Line 153: ring(a, v, c) pushes v and shifts the head off when the
length then exceeds c.  Every call site uses the default capacity 500. -/
def ring {α : Type} (a : List α) (v : α) (c : Nat) : List α :=
  let a1 := a ++ [v]
  if a1.length > c then a1.drop 1 else a1

/-- Ring buffer capacity: the default of the c parameter at line 153. -/
def RING_CAP : Nat := 500

/-- JS s.slice(0, n): the first n characters (all of s when shorter). -/
def jsSlice (s : String) (n : Nat) : String := ⟨s.data.take n⟩

/-- The literal prepended to the serialized document at line 245. -/
def DOCTYPE : String := "<!doctype html>\n"

/-- The html field the snap:dump client handler puts into the payload
(lines 243 to 246): present exactly when the html kind was requested,
and then the doctype line followed by slice(0, 200000) of the
serialized document element. -/
def clientHtmlField (types : List String) (outerHTML : String) : Option String :=
  if types.contains "html" then some (DOCTYPE ++ jsSlice outerHTML 200000) else none

/-! Concrete inputs used by the witnesses and counterexamples. -/

/-- A reply envelope in which the agent reports failure. -/
def envFail : Envelope := ⟨some "r1", false, some "boom", none⟩

/-- A state holding one pending waiter under r1 and no session. -/
def stWithWaiter : St := ⟨[], [("r1", ⟨5000⟩)]⟩

/-- A successful ping reply envelope for r1. -/
def envOk : Envelope := ⟨some "r1", true, none, none⟩

/-- A reply envelope whose identifier no table ever held. -/
def envLate : Envelope := ⟨some "zzz", true, none, none⟩

/-- A sample session last seen at time 9. -/
def demoSess : Sess := ⟨"b:p", "b", "p", "ua", "http://x", "t", 1, 9⟩

/-- A short demonstration trace: one agent says hello, a ping is
dispatched to it, the reply arrives, and the deadline timer of the same
request fires late. -/
def demoEvents : List Event :=
  [.hello "b" "p" "http://x" "t" "ua" 1 0,
   .dispatchPing "b:p" 3000 "r1",
   .pingResult envOk,
   .timerFire "r1"]

/-! Association-list counting lemmas. -/

lemma keyCount_cons {α : Type} (p : String × α) (t : List (String × α)) (r : String) :
    keyCount (p :: t) r = (if p.1 == r then 1 else 0) + keyCount t r := by
  simp only [keyCount, List.filter_cons]
  split <;> simp [Nat.add_comm]

lemma keyCount_append {α : Type} (l1 l2 : List (String × α)) (r : String) :
    keyCount (l1 ++ l2) r = keyCount l1 r + keyCount l2 r := by
  simp [keyCount, List.filter_append]

lemma keyCount_map_upd {α : Type} (l : List (String × α)) (k : String) (v : α) (r : String) :
    keyCount (l.map (fun p => if p.1 == k then (k, v) else p)) r = keyCount l r := by
  induction l with
  | nil => rfl
  | cons p t ih =>
    simp only [List.map_cons, keyCount_cons, ih]
    by_cases h : (p.1 == k) = true
    · have hk : p.1 = k := by simpa using h
      rw [if_pos h]
      simp [hk]
    · rw [if_neg h]

lemma keyCount_mSet_le {α : Type} (l : List (String × α)) (k : String) (v : α) (r : String) :
    keyCount (mSet l k v) r ≤ keyCount l r + (if k = r then 1 else 0) := by
  unfold mSet
  split
  · rw [keyCount_map_upd]
    omega
  · rw [keyCount_append]
    have h1 : keyCount [(k, v)] r = if k = r then 1 else 0 := by
      by_cases h : k = r
      · subst h; simp [keyCount_cons, keyCount]
      · have hb : (k == r) = false := by simpa using h
        simp [keyCount_cons, keyCount, hb, h]
    omega

lemma keyCount_mDel {α : Type} (l : List (String × α)) (k r : String) :
    keyCount (mDel l k) r = if k = r then 0 else keyCount l r := by
  induction l with
  | nil => simp [mDel, keyCount]
  | cons p t ih =>
    by_cases hp : (p.1 == k) = true
    · have h2 : mDel (p :: t) k = mDel t k := by
        simp [mDel, List.filter_cons, hp]
      have hpk : p.1 = k := by simpa using hp
      rw [h2, ih]
      by_cases hkr : k = r
      · simp [hkr]
      · have hpr : (p.1 == r) = false := by
          rw [hpk]
          simpa using hkr
        rw [keyCount_cons, hpr]
        simp [hkr]
    · have hb : (p.1 == k) = false := by simpa using hp
      have h2 : mDel (p :: t) k = p :: mDel t k := by
        simp [mDel, List.filter_cons, hb]
      rw [h2, keyCount_cons, ih, keyCount_cons]
      by_cases hkr : k = r
      · have hpr : (p.1 == r) = false := by
          rw [← hkr]
          exact hb
        simp [hkr, hpr]
      · simp [hkr]

lemma keyCount_pos_of_mGet {α : Type} {l : List (String × α)} {k : String} {v : α}
    (h : mGet l k = some v) : 1 ≤ keyCount l k := by
  induction l with
  | nil => simp [mGet] at h
  | cons p t ih =>
    by_cases hp : (p.1 == k) = true
    · simp [keyCount_cons, hp]
    · have hb : (p.1 == k) = false := by simpa using hp
      rw [keyCount_cons, hb]
      have ht : mGet t k = some v := by
        simpa [mGet, List.find?_cons, hb] using h
      simpa using ih ht

lemma mDel_of_mGet_none {α : Type} {l : List (String × α)} {k : String}
    (h : mGet l k = none) : mDel l k = l := by
  induction l with
  | nil => rfl
  | cons p t ih =>
    by_cases hp : (p.1 == k) = true
    · simp [mGet, List.find?_cons, hp] at h
    · have hb : (p.1 == k) = false := by simpa using hp
      have ht : mGet t k = none := by
        simpa [mGet, List.find?_cons, hb] using h
      simp [mDel, List.filter_cons, hb] at ih ⊢
      exact ih ht

/-! The single-outcome invariant: deliveries plus live waiters under one
identifier never exceed the number of dispatches that minted it. -/

lemma resolveWaiter_bound (st : St) (env : Envelope) (r : String) :
    keyCount (resolveWaiter st env).outs r +
      keyCount (resolveWaiter st env).st.waiters r ≤ keyCount st.waiters r := by
  unfold resolveWaiter
  cases henv : env.reqId with
  | none => simp [keyCount]
  | some rid =>
    cases hget : mGet st.waiters rid with
    | none => simp [hget, keyCount]
    | some w =>
      have hpos := keyCount_pos_of_mGet hget
      simp only [hget]
      rw [keyCount_mDel]
      by_cases hr : rid = r
      · subst hr
        have h0 : (if rid = rid then (0 : Nat) else keyCount st.waiters rid) = 0 :=
          if_pos rfl
        have h1 : keyCount [(rid, Outcome.resolved env)] rid = 1 := by
          simp [keyCount_cons, keyCount]
        omega
      · have hb : (rid == r) = false := by simpa using hr
        have h1 : keyCount [(rid, Outcome.resolved env)] r = 0 := by
          simp [keyCount_cons, keyCount, hb]
        simp [hr, h1]

lemma step_bound (st : St) (e : Event) (r : String) :
    keyCount (step st e).outs r + keyCount (step st e).st.waiters r ≤
      keyCount st.waiters r + mintedCount r [e] := by
  cases e with
  | hello b p href title ua cl now => simp [step, keyCount, mintedCount]
  | pong osid now =>
    cases osid with
    | none => simp [step, keyCount, mintedCount]
    | some sid =>
      cases hget : mGet st.sessions sid with
      | none => simp [step, hget, keyCount, mintedCount]
      | some s => simp [step, hget, keyCount, mintedCount]
  | dumpResult env =>
    have h := resolveWaiter_bound st env r
    simpa [step, mintedCount] using h
  | pingResult env =>
    have h := resolveWaiter_bound st env r
    simpa [step, mintedCount] using h
  | bye osid =>
    cases osid with
    | none => simp [step, keyCount, mintedCount]
    | some sid =>
      by_cases he : sid.isEmpty <;> simp [step, he, keyCount, mintedCount]
  | sweep now => simp [step, keyCount, mintedCount]
  | dispatchDump sid types waitMs reqId =>
    cases hget : mGet st.sessions sid with
    | none =>
      simp only [step, dispatchDumpFn, hget, keyCount, mintedCount, List.filter_nil,
        List.length_nil, Nat.zero_add, Nat.add_zero]
      exact Nat.le_add_right _ _
    | some s =>
      have h := keyCount_mSet_le st.waiters reqId (⟨waitMs⟩ : Waiter) r
      simp only [step, dispatchDumpFn, hget, keyCount, mintedCount, List.filter_nil,
        List.length_nil, Nat.zero_add, Nat.add_zero] at h ⊢
      exact h
  | dispatchPing sid waitMs reqId =>
    cases hget : mGet st.sessions sid with
    | none =>
      simp only [step, dispatchPingFn, hget, keyCount, mintedCount, List.filter_nil,
        List.length_nil, Nat.zero_add, Nat.add_zero]
      exact Nat.le_add_right _ _
    | some s =>
      have h := keyCount_mSet_le st.waiters reqId (⟨waitMs⟩ : Waiter) r
      simp only [step, dispatchPingFn, hget, keyCount, mintedCount, List.filter_nil,
        List.length_nil, Nat.zero_add, Nat.add_zero] at h ⊢
      exact h
  | timerFire reqId =>
    cases hget : mGet st.waiters reqId with
    | none => simp [step, hget, keyCount, mintedCount]
    | some w =>
      have hpos := keyCount_pos_of_mGet hget
      by_cases hr : reqId = r
      · subst hr
        simp only [step, hget, mintedCount, Nat.add_zero]
        rw [keyCount_mDel]
        have h0 : (if reqId = reqId then (0 : Nat) else keyCount st.waiters reqId) = 0 :=
          if_pos rfl
        have h1 : keyCount [(reqId, Outcome.rejected "timeout")] reqId = 1 := by
          simp [keyCount_cons, keyCount]
        omega
      · have hb : (reqId == r) = false := by simpa using hr
        simp only [step, hget, mintedCount, Nat.add_zero]
        rw [keyCount_mDel]
        have h1 : keyCount [(reqId, Outcome.rejected "timeout")] r = 0 := by
          simp [keyCount_cons, keyCount, hb]
        simp [hr, h1]

lemma run_bound (st : St) (evs : List Event) (r : String) :
    keyCount (run st evs).outs r + keyCount (run st evs).st.waiters r ≤
      keyCount st.waiters r + mintedCount r evs := by
  induction evs generalizing st with
  | nil => simp [run, keyCount]
  | cons e t ih =>
    have h1 := step_bound st e r
    have h2 := ih (step st e).st
    have h3 : mintedCount r (e :: t) = mintedCount r [e] + mintedCount r t := by
      cases e <;> simp [mintedCount]
    simp only [run, keyCount_append]
    omega

lemma mintedCount_eq_count (r : String) (evs : List Event) :
    mintedCount r evs = (mintedIds evs).count r := by
  induction evs with
  | nil => rfl
  | cons e t ih =>
    cases e with
    | dispatchDump sid types waitMs reqId =>
      by_cases hr : reqId = r
      · simp [mintedCount, mintedIds, ih, List.count_cons, hr, Nat.add_comm]
      · simp [mintedCount, mintedIds, ih, List.count_cons, hr, Nat.add_comm]
    | dispatchPing sid waitMs reqId =>
      by_cases hr : reqId = r
      · simp [mintedCount, mintedIds, ih, List.count_cons, hr, Nat.add_comm]
      · simp [mintedCount, mintedIds, ih, List.count_cons, hr, Nat.add_comm]
    | hello b p href title ua cl now => simp [mintedCount, mintedIds, ih]
    | pong osid now => simp [mintedCount, mintedIds, ih]
    | dumpResult env => simp [mintedCount, mintedIds, ih]
    | pingResult env => simp [mintedCount, mintedIds, ih]
    | bye osid => simp [mintedCount, mintedIds, ih]
    | sweep now => simp [mintedCount, mintedIds, ih]
    | timerFire reqId => simp [mintedCount, mintedIds, ih]

lemma mintedCount_le_one {r : String} {evs : List Event}
    (h : (mintedIds evs).Nodup) : mintedCount r evs ≤ 1 := by
  rw [mintedCount_eq_count]
  exact List.nodup_iff_count_le_one.mp h r

/-! Injectivity of the joined session key on separator-free components. -/

lemma sep_append_inj {α : Type} (sep : α) :
    ∀ (b1 b2 p1 p2 : List α), sep ∉ b1 → sep ∉ b2 →
      b1 ++ sep :: p1 = b2 ++ sep :: p2 → b1 = b2 ∧ p1 = p2 := by
  intro b1
  induction b1 with
  | nil =>
    intro b2 p1 p2 _ h2 heq
    cases b2 with
    | nil =>
      refine ⟨rfl, ?_⟩
      simpa using heq
    | cons x t2 =>
      exfalso
      simp only [List.nil_append, List.cons_append, List.cons.injEq] at heq
      exact h2 (by simp [heq.1.symm])
  | cons a t ih =>
    intro b2 p1 p2 h1 h2 heq
    cases b2 with
    | nil =>
      exfalso
      simp only [List.nil_append, List.cons_append, List.cons.injEq] at heq
      exact h1 (by simp [heq.1])
    | cons x t2 =>
      simp only [List.cons_append, List.cons.injEq] at heq
      have h1t : sep ∉ t := fun hm => h1 (List.mem_cons_of_mem a hm)
      have h2t : sep ∉ t2 := fun hm => h2 (List.mem_cons_of_mem x hm)
      obtain ⟨e1, e2⟩ := ih t2 p1 p2 h1t h2t heq.2
      exact ⟨by rw [heq.1, e1], e2⟩

lemma helloSid_data (b p : String) :
    (helloSid b p).data = b.data ++ ':' :: p.data := by
  simp [helloSid, String.data_append]

/-! Ring-buffer lemmas. -/

lemma ring_full {α : Type} (a : List α) (v : α) (c : Nat) (h : a.length = c)
    (hc : 0 < c) : ring a v c = a.drop 1 ++ [v] := by
  unfold ring
  have hlen : (a ++ [v]).length = c + 1 := by simp [h]
  rw [if_pos (by omega)]
  exact List.drop_append_of_le_length (by omega)

lemma foldl_ring_lastN {α : Type} (c : Nat) (hc : 0 < c) (xs : List α) :
    List.foldl (fun a v => ring a v c) [] xs = xs.drop (xs.length - c) := by
  induction xs using List.reverseRecOn with
  | nil => simp
  | append_singleton xs v ih =>
    rw [List.foldl_append, List.foldl_cons, List.foldl_nil, ih]
    by_cases h : xs.length < c
    · have h0 : xs.length - c = 0 := by omega
      rw [h0, List.drop_zero]
      unfold ring
      rw [if_neg (by simp; omega)]
      have h1 : (xs ++ [v]).length - c = 0 := by simp; omega
      rw [h1, List.drop_zero]
    · have hcl : c ≤ xs.length := by omega
      have hacc : (xs.drop (xs.length - c)).length = c := by
        rw [List.length_drop]
        omega
      rw [ring_full _ v c hacc hc, List.drop_drop]
      have h2 : (xs ++ [v]).drop ((xs ++ [v]).length - c) =
          xs.drop ((xs ++ [v]).length - c) ++ [v] := by
        apply List.drop_append_of_le_length
        simp
        omega
      rw [h2]
      have h3 : (xs ++ [v]).length - c = (xs.length - c) + 1 := by
        simp
        omega
      rw [h3, Nat.add_comm]

/-! Claim theorems. -/

/-- Claim C1: for every request identifier minted by dispatch (handleDump
or handlePing), at most one outcome is ever delivered to the waiting
caller; the reply and the deadline race, the losing side is a no-op, so
resolve and reject are never both invoked and neither is invoked twice.
Formally: on any event trace from the initial state whose dispatch
events carry pairwise distinct identifiers (crypto.randomUUID), the
delivered outcomes contain at most one entry per identifier. -/
theorem request_single_outcome (evs : List Event) (r : String)
    (hfresh : (mintedIds evs).Nodup) :
    keyCount (run initSt evs).outs r ≤ 1 := by
  have hb := run_bound initSt evs r
  have hm := mintedCount_le_one (r := r) hfresh
  have h0 : keyCount initSt.waiters r = 0 := rfl
  omega

/-- Witness for C1 on a concrete trace in which the reply and the late
deadline timer of the same request both arrive. -/
theorem request_single_outcome_witness :
    (mintedIds demoEvents).Nodup ∧ keyCount (run initSt demoEvents).outs "r1" ≤ 1 :=
  ⟨by decide, request_single_outcome demoEvents "r1" (by decide)⟩

/-- Claim C2 counterexample: a dump reply carrying ok false is handed to
the waiting caller through resolve with the whole envelope; nothing is
rejected, so the claim that the waiter is rejected with the
agent-supplied detail fails on this input. -/
theorem agent_failure_resolved_counterexample :
    envFail.ok = false ∧
    (step stWithWaiter (.dumpResult envFail)).outs = [("r1", Outcome.resolved envFail)] ∧
    (step stWithWaiter (.dumpResult envFail)).outs.all (fun d => !(isRejection d.2)) = true := by
  decide

/-- Claim C2 (amended): for every dispatched dump or ping whose reply
arrives in time carrying ok false, the handler resolves the waiter with
the full reply envelope (the ok flag and the agent-supplied detail
included) and removes it; the caller observes the failure by inspecting
the envelope, not through a rejection. -/
theorem agent_failure_resolved_with_envelope (st : St) (env : Envelope) (r : String)
    (w : Waiter) (hr : env.reqId = some r) (hw : mGet st.waiters r = some w)
    (_hok : env.ok = false) :
    (step st (.dumpResult env)).outs = [(r, Outcome.resolved env)] ∧
    (step st (.pingResult env)).outs = [(r, Outcome.resolved env)] ∧
    (step st (.dumpResult env)).st.waiters = mDel st.waiters r ∧
    (step st (.pingResult env)).st.waiters = mDel st.waiters r := by
  simp [step, resolveWaiter, hr, hw]

/-- Witness for the amended C2 at a concrete failing envelope. -/
theorem agent_failure_resolved_with_envelope_witness :
    (step stWithWaiter (.dumpResult envFail)).outs = [("r1", Outcome.resolved envFail)] :=
  (agent_failure_resolved_with_envelope stWithWaiter envFail "r1" ⟨5000⟩
    (by decide) (by decide) (by decide)).1

/-- Claim C3: dispatching a dump or ping to a session id absent from the
registry fails immediately with a no-such-session error; no waiter is
registered, the state is unchanged, nothing is delivered and nothing is
sent on any channel (in the source the throw at lines 28 and 38 precedes
the minting of the request identifier). -/
theorem unknown_session_fails_fast (st : St) (sid : String) (types : List String)
    (waitMs : Nat) (reqId : String) (h : mGet st.sessions sid = none) :
    dispatchDumpFn st sid types waitMs reqId = .error "no such session" ∧
    dispatchPingFn st sid waitMs reqId = .error "no such session" ∧
    step st (.dispatchDump sid types waitMs reqId) = ⟨st, [], []⟩ ∧
    step st (.dispatchPing sid waitMs reqId) = ⟨st, [], []⟩ := by
  refine ⟨?_, ?_, ?_, ?_⟩ <;> simp [step, dispatchDumpFn, dispatchPingFn, h]

/-- Witness for C3: a session id the registry never saw. -/
theorem unknown_session_fails_fast_witness :
    dispatchDumpFn initSt "ghost" ["html"] 5000 "r9" = .error "no such session" :=
  (unknown_session_fails_fast initSt "ghost" ["html"] 5000 "r9" (by decide)).1

/-- Claim C4: a dumpResult or pingResult event whose request identifier
is missing or not present in the correlation table is a silent no-op:
no waiter is resolved or rejected and neither table changes. -/
theorem unmatched_reply_noop (st : St) (env : Envelope)
    (h : ∀ rid, env.reqId = some rid → mGet st.waiters rid = none) :
    step st (.dumpResult env) = ⟨st, [], []⟩ ∧
    step st (.pingResult env) = ⟨st, [], []⟩ := by
  cases henv : env.reqId with
  | none => constructor <;> simp [step, resolveWaiter, henv]
  | some rid =>
    have hn := h rid henv
    constructor <;> simp [step, resolveWaiter, henv, hn]

/-- Witness for C4: a reply whose identifier was never issued. -/
theorem unmatched_reply_noop_witness :
    step stWithWaiter (.dumpResult envLate) = ⟨stWithWaiter, [], []⟩ := by
  have h : ∀ rid, envLate.reqId = some rid → mGet stWithWaiter.waiters rid = none := by
    intro rid hr
    have h2 : "zzz" = rid := by simpa [envLate] using hr
    subst h2
    decide
  exact (unmatched_reply_noop stWithWaiter envLate h).1

/-- Claim C5: under an active-only listing query a session appears in
the filtered result exactly when now minus lastSeen is within the
window, the window being the caller-supplied activeMs value when one is
given and 45000 ms otherwise; without the active-only flag every
registered session appears. -/
theorem sessions_listing_active_window (ss : List Sess) (now : Nat)
    (ap amp : Option String) (w : Nat)
    (hw : (amp = none ∧ w = DEFAULT_ACTIVE_WINDOW_MS) ∨
      (∃ str, amp = some str ∧ jsTruthyStr str = true ∧ jsNumber str = some w)) :
    (onlyActiveFlag ap amp = true →
      ∀ s, s ∈ sessionsFiltered ss now ap amp ↔ s ∈ ss ∧ now - s.lastSeen ≤ w) ∧
    (onlyActiveFlag ap amp = false → sessionsFiltered ss now ap amp = ss) := by
  have hwin : activeWindowMs amp = some w := by
    rcases hw with ⟨h1, h2⟩ | ⟨str, h1, h2, h3⟩
    · rw [h1, h2]
      rfl
    · rw [h1]
      simp [activeWindowMs, h2, h3, Nat.zero_max]
  constructor
  · intro ha s
    rw [sessionsFiltered, List.mem_filter]
    simp [activeKeep, ha, hwin]
  · intro ha
    rw [sessionsFiltered]
    apply List.filter_eq_self.mpr
    intro s _
    simp [activeKeep, ha, hwin]

/-- Witness for C5: an explicit window of 1000 ms admits a session of
age 1 into the active-only listing. -/
theorem sessions_listing_active_window_witness :
    demoSess ∈ sessionsFiltered [demoSess] 10 none (some "1000") :=
  ((sessions_listing_active_window [demoSess] 10 none (some "1000") 1000
    (Or.inr ⟨"1000", rfl, by decide, by decide⟩)).1 (by decide) demoSess).mpr
    ⟨by simp, by decide⟩

/-- Claim C6: one pass of the sweeper keeps exactly the sessions whose
age does not exceed the 5 minute stale threshold, removes no other
session, delivers nothing, and leaves the correlation table (and with it
every in-flight waiter) untouched. -/
theorem sweeper_exact (st : St) (now : Nat) :
    (step st (.sweep now)).st.waiters = st.waiters ∧
    (step st (.sweep now)).outs = [] ∧
    ∀ q, q ∈ (step st (.sweep now)).st.sessions ↔
      q ∈ st.sessions ∧ now - q.2.lastSeen ≤ STALE_SESSION_MS := by
  refine ⟨rfl, rfl, ?_⟩
  intro q
  simp [step, sweepSessions, List.mem_filter, Nat.not_lt]

/-- Claim C7 counterexample: two hello events with distinct identity
pairs collide on the joined key when the browser identifier contains the
separator, and the second replaces the first in the registry; so the
claim that any two distinct pairs always yield distinct sessions fails. -/
theorem session_identity_counterexample :
    helloSid "a:b" "c" = helloSid "a" "b:c" ∧ ¬("a:b" = "a" ∧ "c" = "b:c") ∧
    (run initSt [.hello "a:b" "c" "h1" "t1" "u1" 1 0,
                 .hello "a" "b:c" "h2" "t2" "u2" 2 1]).st.sessions.length = 1 := by
  decide

/-- Claim C7 (amended): the registry is keyed by the joined string
browserId, separator, pageId; whenever the two browser identifiers are
free of the separator character (as the UUID identifiers the client
generates are), two hello events address the same registry entry exactly
when both components of the identity pair agree. -/
theorem session_identity_amended (b1 p1 b2 p2 : String)
    (h1 : ':' ∉ b1.data) (h2 : ':' ∉ b2.data) :
    helloSid b1 p1 = helloSid b2 p2 ↔ (b1 = b2 ∧ p1 = p2) := by
  constructor
  · intro h
    have hd : b1.data ++ ':' :: p1.data = b2.data ++ ':' :: p2.data := by
      have hq := congrArg String.data h
      rw [helloSid_data, helloSid_data] at hq
      exact hq
    obtain ⟨e1, e2⟩ := sep_append_inj ':' b1.data b2.data p1.data p2.data h1 h2 hd
    exact ⟨String.ext e1, String.ext e2⟩
  · intro h
    rw [h.1, h.2]

/-- Witness for the amended C7 at concrete separator-free identifiers. -/
theorem session_identity_amended_witness :
    helloSid "a" "p" = helloSid "a" "q" ↔ ("a" = "a" ∧ "p" = "q") :=
  session_identity_amended "a" "p" "a" "q" (by decide) (by decide)

/-- Claim C8: a pong naming an identity the registry does not hold
leaves the whole state unchanged and raises nothing, and processing bye
is idempotent: removing an absent or already-removed session changes
nothing (every handler here is a total function, so no error can be
raised). -/
theorem heartbeat_ignored_bye_idempotent (st : St) (sid : String) (now : Nat)
    (h : mGet st.sessions sid = none) :
    step st (.pong (some sid) now) = ⟨st, [], []⟩ ∧
    step st (.bye (some sid)) = ⟨st, [], []⟩ ∧
    (∀ (st2 : St) (osid : Option String),
      (step (step st2 (.bye osid)).st (.bye osid)).st.sessions =
        (step st2 (.bye osid)).st.sessions) := by
  refine ⟨?_, ?_, ?_⟩
  · simp [step, h]
  · have hd : mDel st.sessions sid = st.sessions := mDel_of_mGet_none h
    by_cases he : sid.isEmpty <;> simp [step, he, hd]
  · intro st2 osid
    cases osid with
    | none => rfl
    | some sid2 =>
      by_cases he : sid2.isEmpty
      · simp [step, he]
      · simp [step, he, mDel, List.filter_filter]

/-- Witness for C8: a heartbeat for an identity never registered. -/
theorem heartbeat_ignored_bye_idempotent_witness :
    step stWithWaiter (.pong (some "ghost") 99) = ⟨stWithWaiter, [], []⟩ :=
  (heartbeat_ignored_bye_idempotent stWithWaiter "ghost" 99 (by decide)).1

/-- Claim C9: the client ring buffers have capacity 500; an insertion
appends at the end, a full buffer drops exactly its oldest record, and
after any insertion sequence from empty the buffer holds exactly the
most recent insertions in order, never more than 500 of them. -/
theorem ring_buffer_bounded {α : Type} (xs : List α) :
    (∀ (a : List α) (v : α), a.length = RING_CAP → ring a v RING_CAP = a.drop 1 ++ [v]) ∧
    List.foldl (fun a v => ring a v RING_CAP) ([] : List α) xs =
      xs.drop (xs.length - RING_CAP) ∧
    (List.foldl (fun a v => ring a v RING_CAP) ([] : List α) xs).length ≤ RING_CAP := by
  refine ⟨?_, ?_, ?_⟩
  · intro a v h
    exact ring_full a v RING_CAP h (by decide)
  · exact foldl_ring_lastN RING_CAP (by decide) xs
  · rw [foldl_ring_lastN RING_CAP (by decide) xs, List.length_drop]
    omega

/-- Witness for C9 on a short concrete insertion sequence. -/
theorem ring_buffer_bounded_witness :
    List.foldl (fun a v => ring a v RING_CAP) ([] : List Nat) [1, 2, 3] = [1, 2, 3] :=
  ((ring_buffer_bounded [1, 2, 3]).2.1).trans (by decide)

/-- Claim C10: whenever a dump requests the html kind, the html field of
the payload is the doctype line followed by at most the first 200000
characters of the serialized document element, hence bounded by 200016
characters whatever the page size. -/
theorem dump_html_bounded (types : List String) (o : String)
    (h : types.contains "html" = true) :
    clientHtmlField types o = some (DOCTYPE ++ jsSlice o 200000) ∧
    ∀ s, clientHtmlField types o = some s → s.length ≤ 200016 := by
  have he : clientHtmlField types o = some (DOCTYPE ++ jsSlice o 200000) := by
    unfold clientHtmlField
    rw [if_pos h]
  refine ⟨he, ?_⟩
  intro s hs
  rw [he] at hs
  have hss : s = DOCTYPE ++ jsSlice o 200000 := by
    exact (Option.some_inj.mp hs).symm
  subst hss
  rw [String.length_append]
  have h1 : DOCTYPE.length = 16 := by decide
  have h2 : (jsSlice o 200000).length ≤ 200000 := by
    have h3 : (jsSlice o 200000).length = (o.data.take 200000).length := rfl
    rw [h3, List.length_take]
    omega
  omega

/-- Witness for C10 on a one-character page. -/
theorem dump_html_bounded_witness :
    clientHtmlField ["html"] "x" = some (DOCTYPE ++ jsSlice "x" 200000) :=
  (dump_html_bounded ["html"] "x" (by decide)).1

end SnapApi
